import Mathlib

/-!
Verification of the book-tracker fetch/normalize core (`src/main.py`).

The embedding models Python JSON-like values as the inductive type `Value`,
Python dictionary access (`dict.get`), truthiness (`or` defaulting), string
joining, and the two core functions of the program:

* `normalize_item` — flattens one raw API item into an ordered row
  (association list), mirroring `main.py` lines 15–42.  A Python exception
  (e.g. `AttributeError` from `.get` on a non-dict, or `TypeError` from
  joining a list with non-string elements) is modelled as `none`.
* `fetch_books` — the pagination loop of `main.py` lines 44–79.  The HTTP
  layer is an oracle `pages : Nat → Response` giving the response to the
  k-th request issued; the function returns the list of issued requests
  (the trace) together with either the accumulated rows or the raised
  exception.  `time.sleep` has no observable effect in this model and is
  omitted; a JSON-parse failure of `resp.json()` is outside the claims
  considered and the response body is modelled already parsed.
* `to_dataframe_cols` — the explicit column order that `to_dataframe`
  (lines 81–90) imposes on the CSV output via `df.reindex`.
-/

/-- JSON-like Python values as they occur in API responses: `None`,
booleans, numbers, strings, lists and dicts (association lists; the dicts
arising here have pairwise distinct keys). -/
inductive Value where
  | null : Value
  | bool : Bool → Value
  | num : Int → Value
  | str : String → Value
  | list : List Value → Value
  | obj : List (String × Value) → Value
deriving Repr

/-- Python truthiness: `None`, `False`, `0`, `""`, `[]`, `{}` are falsy. -/
def Value.truthy : Value → Bool
  | .null => false
  | .bool b => b
  | .num n => n != 0
  | .str s => s != ""
  | .list xs => !xs.isEmpty
  | .obj kvs => !kvs.isEmpty

/-- First binding of key `k` (the dicts built here have distinct keys). -/
def lookupKey (kvs : List (String × Value)) (k : String) : Option Value :=
  match kvs with
  | [] => none
  | (k', v) :: rest => if k' = k then some v else lookupKey rest k

/-- Python `v.get(k, d)`: `none` models the `AttributeError` raised when
`v` is not a dict. -/
def Value.getD (v : Value) (k : String) (d : Value) : Option Value :=
  match v with
  | .obj kvs => some ((lookupKey kvs k).getD d)
  | _ => none

/-- Python `v.get(k)` (default `None`). -/
def Value.pyGet (v : Value) (k : String) : Option Value :=
  v.getD k .null

/-- Python `a or b`. -/
def pyOr (a b : Value) : Value := if a.truthy then a else b

/-- All elements as strings, or `none` (the `TypeError` of
`", ".join` applied to a list with a non-string element). -/
def strList : List Value → Option (List String)
  | [] => some []
  | .str s :: rest => (strList rest).map (fun ss => s :: ss)
  | _ :: _ => none

/-- `", ".join(v) if isinstance(v, list) else v` (`main.py` lines 28, 33). -/
def joinIfList (v : Value) : Option Value :=
  match v with
  | .list xs => (strList xs).map (fun ss => .str (String.intercalate ", " ss))
  | _ => some v

/-- The ordered row built by the dict literal of `main.py` lines 24–42:
the seventeen fields in source order, each a total lookup with default
"absent" (`null`), with the already-joined `authors`/`categories` values
inserted at their positions. -/
def rowFields (kvs vkvs skvs akvs : List (String × Value))
    (authorsJ categoriesJ : Value) : List (String × Value) :=
  [("id", (lookupKey kvs "id").getD .null),
   ("title", (lookupKey vkvs "title").getD .null),
   ("subtitle", (lookupKey vkvs "subtitle").getD .null),
   ("authors", authorsJ),
   ("publisher", (lookupKey vkvs "publisher").getD .null),
   ("publishedDate", (lookupKey vkvs "publishedDate").getD .null),
   ("description", (lookupKey vkvs "description").getD .null),
   ("pageCount", (lookupKey vkvs "pageCount").getD .null),
   ("categories", categoriesJ),
   ("averageRating", (lookupKey vkvs "averageRating").getD .null),
   ("ratingsCount", (lookupKey vkvs "ratingsCount").getD .null),
   ("language", (lookupKey vkvs "language").getD .null),
   ("infoLink", (lookupKey vkvs "infoLink").getD .null),
   ("previewLink", (lookupKey vkvs "previewLink").getD .null),
   ("canonicalVolumeLink", (lookupKey vkvs "canonicalVolumeLink").getD .null),
   ("isEbook", (lookupKey skvs "isEbook").getD .null),
   ("webReaderLink", (lookupKey akvs "webReaderLink").getD .null)]

/-- `normalize_item` (`main.py` lines 15–42): flatten one raw item into an
ordered row.  `none` models a raised exception: `item` not a dict, a
truthy non-dict `volumeInfo`/`saleInfo`/`accessInfo` (`AttributeError`
from `.get`), or a `TypeError` from one of the two joins.  On an
established dict, Python `d.get(k)` is the total
`(lookupKey kvs k).getD .null` and `d.get(k, {})` is
`(lookupKey kvs k).getD (.obj [])`. -/
def normalize_item (item : Value) : Option (List (String × Value)) :=
  match item with
  | .obj kvs =>
    let volume := pyOr ((lookupKey kvs "volumeInfo").getD (.obj [])) (.obj [])
    let sale := pyOr ((lookupKey kvs "saleInfo").getD (.obj [])) (.obj [])
    let access := pyOr ((lookupKey kvs "accessInfo").getD (.obj [])) (.obj [])
    match volume, sale, access with
    | .obj vkvs, .obj skvs, .obj akvs =>
      let authors := pyOr ((lookupKey vkvs "authors").getD .null) (.list [])
      let categories := pyOr ((lookupKey vkvs "categories").getD .null) (.list [])
      match joinIfList authors, joinIfList categories with
      | some authorsJ, some categoriesJ =>
        some (rowFields kvs vkvs skvs akvs authorsJ categoriesJ)
      | _, _ => none
    | _, _, _ => none
  | _ => none

/-- One HTTP response of the oracle: status code, body text (used for the
error excerpt) and the parsed JSON body. -/
structure Response where
  status : Nat
  text : String
  json : Value

/-- The query parameters of one issued GET request (`main.py` lines 56–62):
`key` is present exactly when the supplied API key is truthy. -/
structure Request where
  q : String
  startIndex : Int
  maxResults : Int
  key : Option String
deriving Repr, DecidableEq

/-- Exceptions the fetch loop can raise.  `httpStatus` is the
`RuntimeError(f"HTTP {status}: {text[:200]}")` of line 66, carrying the
status code and the body excerpt; the other kinds model the Python
exceptions escaping from `data.get` on a non-dict, from iterating a
non-iterable `items` value, and from `normalize_item`. -/
inductive PyError where
  | httpStatus : Nat → String → PyError
  | attributeError : PyError
  | typeError : PyError
  | normalizeError : PyError
deriving Repr, DecidableEq

/-- Python string slicing `s[:n]` (by characters). -/
def pySlice (s : String) (n : Nat) : String := String.mk (s.data.take n)

/-- The `key` entry of the request parameters: included exactly when
`api_key` is truthy (`main.py` lines 61–62), so `None` and `""` both omit it. -/
def effKey : Option String → Option String
  | none => none
  | some s => if s = "" then none else some s

/-- Python iteration over a value: lists yield elements, strings yield
their characters, dicts yield their keys; other values raise `TypeError`. -/
def iterValue : Value → Option (List Value)
  | .list xs => some xs
  | .str s => some (s.data.map (fun c => .str (String.mk [c])))
  | .obj kvs => some (kvs.map (fun kv => .str kv.1))
  | _ => none

/-- Lines 68–71: `items = data.get("items") or []; if not items: break`.
`.ok none` is the break (falsy items), `.ok (some xs)` the list iterated
by the `for` loop. -/
def extractItems (data : Value) : Except PyError (Option (List Value)) :=
  match data.pyGet "items" with
  | none => .error .attributeError
  | some itemsv =>
    let items := pyOr itemsv (.list [])
    if items.truthy then
      match iterValue items with
      | none => .error .typeError
      | some xs => .ok (some xs)
    else
      .ok none

/-- Normalize the items of one page in order (the `for` loop of lines
73–74); `none` if any `normalize_item` raises. -/
def normList : List Value → Option (List (List (String × Value)))
  | [] => some []
  | x :: xs =>
    match normalize_item x, normList xs with
    | some r, some rs => some (r :: rs)
    | _, _ => none

theorem normList_length {xs : List Value} {rs : List (List (String × Value))}
    (h : normList xs = some rs) : rs.length = xs.length := by
  induction xs generalizing rs with
  | nil => simp [normList] at h; simp [← h]
  | cons x xs ih =>
    simp only [normList] at h
    cases hx : normalize_item x with
    | none => rw [hx] at h; simp at h
    | some r =>
      rw [hx] at h
      cases hxs : normList xs with
      | none => rw [hxs] at h; simp at h
      | some rs' =>
        rw [hxs] at h
        simp at h
        simp [← h, ih hxs]

theorem iterValue_truthy_ne_nil {v : Value} {xs : List Value}
    (ht : v.truthy = true) (hi : iterValue v = some xs) : xs ≠ [] := by
  cases v with
  | list l =>
    simp [iterValue] at hi
    simp [Value.truthy, List.isEmpty_iff] at ht
    simp [← hi, ht]
  | str s =>
    simp [iterValue] at hi
    simp [Value.truthy] at ht
    intro hnil
    rw [← hi] at hnil
    simp at hnil
    apply ht
    cases s
    simp_all
  | obj kvs =>
    simp [iterValue] at hi
    simp [Value.truthy, List.isEmpty_iff] at ht
    intro hnil
    rw [← hi] at hnil
    simp at hnil
    exact ht hnil
  | null => simp [Value.truthy] at ht
  | bool b => simp [iterValue] at hi
  | num n => simp [iterValue] at hi

theorem extractItems_some_ne_nil {d : Value} {xs : List Value}
    (h : extractItems d = .ok (some xs)) : xs ≠ [] := by
  unfold extractItems at h
  cases hg : d.pyGet "items" with
  | none => rw [hg] at h; simp at h
  | some itemsv =>
    rw [hg] at h
    simp only at h
    by_cases ht : (pyOr itemsv (.list [])).truthy
    · rw [if_pos ht] at h
      cases hi : iterValue (pyOr itemsv (.list [])) with
      | none => rw [hi] at h; simp at h
      | some ys =>
        rw [hi] at h
        simp at h
        rw [← h]
        exact iterValue_truthy_ne_nil ht hi
    · rw [if_neg ht] at h
      simp at h

/-- The pagination loop of `fetch_books` (`main.py` lines 52–79), from a
loop state: `k` requests already issued, running offset `start`, rows
accumulated in `results`.  Returns the requests issued from this state on,
and either the final accumulated rows or the raised exception. -/
def fetchLoop (q : String) (key? : Option String) (max_results page_size : Int)
    (pages : Nat → Response) (k : Nat) (start : Int)
    (results : List (List (String × Value))) :
    List Request × Except PyError (List (List (String × Value))) :=
  if h : (results.length : Int) < max_results then
    let remaining := max_results - results.length
    let this_page := min page_size remaining
    let req : Request := ⟨q, start, this_page, effKey key?⟩
    let resp := pages k
    if resp.status ≠ 200 then
      ([req], .error (.httpStatus resp.status (pySlice resp.text 200)))
    else
      match hx : extractItems resp.json with
      | .error e => ([req], .error e)
      | .ok none => ([req], .ok results)
      | .ok (some xs) =>
        match hn : normList xs with
        | none => ([req], .error .normalizeError)
        | some rows =>
          let r := fetchLoop q key? max_results page_size pages (k + 1) (start + this_page)
            (results ++ rows)
          (req :: r.1, r.2)
  else
    ([], .ok results)
termination_by (max_results - results.length).toNat
decreasing_by
  have hne : xs ≠ [] := extractItems_some_ne_nil hx
  have hlen : rows.length = xs.length := normList_length hn
  have hpos : 0 < xs.length := List.length_pos.mpr hne
  simp only [List.length_append]
  omega

/-- `fetch_books` (`main.py` lines 44–79): clamp the page size to [1, 40]
and run the pagination loop from the initial state. -/
def fetch_books (q : String) (api_key : Option String) (max_results page_size : Int)
    (pages : Nat → Response) :
    List Request × Except PyError (List (List (String × Value))) :=
  fetchLoop q api_key max_results (max 1 (min page_size 40)) pages 0 0 []

/-- The column order that `to_dataframe` (`main.py` lines 81–90) imposes on
the output via `df.reindex(columns=cols)`; this is the CSV header order. -/
def to_dataframe_cols : List String :=
  ["id", "title", "subtitle", "authors", "publisher", "publishedDate",
   "categories", "pageCount", "averageRating", "ratingsCount",
   "language", "infoLink", "previewLink", "canonicalVolumeLink",
   "isEbook", "webReaderLink", "description"]

/-- Modelled from the spec (§3): the fixed field-name list in §3 order,
with `description` in seventh position.  Used only to compare the spec's
stated order with the orders found in the code. -/
def spec_field_order : List String :=
  ["id", "title", "subtitle", "authors", "publisher", "publishedDate",
   "description", "pageCount", "categories", "averageRating",
   "ratingsCount", "language", "infoLink", "previewLink",
   "canonicalVolumeLink", "isEbook", "webReaderLink"]

/-- The request built at a loop state (`main.py` lines 53–62). -/
def mkReq (q : String) (key? : Option String) (M ps : Int) (start : Int)
    (results : List (List (String × Value))) : Request :=
  ⟨q, start, min ps (M - results.length), effKey key?⟩

theorem fetchLoop_badStatus {q : String} {key? : Option String} {M ps : Int}
    {pages : Nat → Response} {k : Nat} {start : Int}
    {results : List (List (String × Value))}
    (hlt : (results.length : Int) < M)
    (hst : (pages k).status ≠ 200) :
    fetchLoop q key? M ps pages k start results =
      ([mkReq q key? M ps start results],
        .error (.httpStatus (pages k).status (pySlice (pages k).text 200))) := by
  rw [fetchLoop.eq_def, dif_pos hlt, if_pos hst]
  rfl

theorem fetchLoop_extractError {q : String} {key? : Option String} {M ps : Int}
    {pages : Nat → Response} {k : Nat} {start : Int}
    {results : List (List (String × Value))} {e : PyError}
    (hlt : (results.length : Int) < M)
    (hst : (pages k).status = 200)
    (hx : extractItems (pages k).json = .error e) :
    fetchLoop q key? M ps pages k start results =
      ([mkReq q key? M ps start results], .error e) := by
  rw [fetchLoop.eq_def, dif_pos hlt, if_neg (by simp [hst])]
  split
  · simp_all [mkReq]
  · simp_all
  · simp_all

theorem fetchLoop_break {q : String} {key? : Option String} {M ps : Int}
    {pages : Nat → Response} {k : Nat} {start : Int}
    {results : List (List (String × Value))}
    (hlt : (results.length : Int) < M)
    (hst : (pages k).status = 200)
    (hx : extractItems (pages k).json = .ok none) :
    fetchLoop q key? M ps pages k start results =
      ([mkReq q key? M ps start results], .ok results) := by
  rw [fetchLoop.eq_def, dif_pos hlt, if_neg (by simp [hst])]
  split
  · simp_all
  · rfl
  · simp_all

theorem fetchLoop_normError {q : String} {key? : Option String} {M ps : Int}
    {pages : Nat → Response} {k : Nat} {start : Int}
    {results : List (List (String × Value))} {xs : List Value}
    (hlt : (results.length : Int) < M)
    (hst : (pages k).status = 200)
    (hx : extractItems (pages k).json = .ok (some xs))
    (hn : normList xs = none) :
    fetchLoop q key? M ps pages k start results =
      ([mkReq q key? M ps start results], .error .normalizeError) := by
  rw [fetchLoop.eq_def, dif_pos hlt, if_neg (by simp [hst])]
  split
  · simp_all
  · simp_all
  · rename_i ys hy
    rw [hx] at hy
    cases hy
    rw [hn]
    rfl

theorem fetchLoop_step {q : String} {key? : Option String} {M ps : Int}
    {pages : Nat → Response} {k : Nat} {start : Int}
    {results : List (List (String × Value))} {xs : List Value}
    {rows : List (List (String × Value))}
    (hlt : (results.length : Int) < M)
    (hst : (pages k).status = 200)
    (hx : extractItems (pages k).json = .ok (some xs))
    (hn : normList xs = some rows) :
    fetchLoop q key? M ps pages k start results =
      (mkReq q key? M ps start results ::
          (fetchLoop q key? M ps pages (k + 1) (start + min ps (M - results.length))
            (results ++ rows)).1,
        (fetchLoop q key? M ps pages (k + 1) (start + min ps (M - results.length))
            (results ++ rows)).2) := by
  rw [fetchLoop.eq_def, dif_pos hlt, if_neg (by simp [hst])]
  split
  · simp_all
  · simp_all
  · rename_i ys hy
    rw [hx] at hy
    cases hy
    rw [hn]
    rfl

theorem fetchLoop_exit {q : String} {key? : Option String} {M ps : Int}
    {pages : Nat → Response} {k : Nat} {start : Int}
    {results : List (List (String × Value))}
    (hge : ¬ (results.length : Int) < M) :
    fetchLoop q key? M ps pages k start results = ([], .ok results) := by
  rw [fetchLoop.eq_def, dif_neg hge]

/-- A request trace is chained from `start`: each request begins at the
running offset, which the next request advances by that request's
`maxResults` (the code's `start += this_page`). -/
def chained (start : Int) : List Request → Prop
  | [] => True
  | r :: rs => r.startIndex = start ∧ chained (start + r.maxResults) rs

theorem fetchLoop_chained (q : String) (key? : Option String) (M ps : Int)
    (pages : Nat → Response) (k : Nat) (start : Int)
    (results : List (List (String × Value))) :
    chained start (fetchLoop q key? M ps pages k start results).1 := by
  induction k, start, results using fetchLoop.induct q key? M ps pages with
  | case1 k start results hlt resp hst =>
    rw [fetchLoop_badStatus hlt hst]
    simp [chained, mkReq]
  | case2 k start results hlt resp hst e hx =>
    rw [fetchLoop_extractError hlt (by simpa using hst) hx]
    simp [chained, mkReq]
  | case3 k start results hlt resp hst hx =>
    rw [fetchLoop_break hlt (by simpa using hst) hx]
    simp [chained, mkReq]
  | case4 k start results hlt resp hst xs hx hn =>
    rw [fetchLoop_normError hlt (by simpa using hst) hx hn]
    simp [chained, mkReq]
  | case5 k start results hlt remaining this_page resp hst xs hx rows hn ih =>
    rw [fetchLoop_step hlt (by simpa using hst) hx hn]
    exact ⟨rfl, ih⟩
  | case6 k start results hge =>
    rw [fetchLoop_exit hge]
    simp [chained]

theorem fetchLoop_req_shape (q : String) (key? : Option String) (M ps : Int)
    (pages : Nat → Response) (hps1 : 1 ≤ ps) (hps40 : ps ≤ 40) (k : Nat) (start : Int)
    (results : List (List (String × Value))) :
    ∀ req ∈ (fetchLoop q key? M ps pages k start results).1,
      req.q = q ∧ req.key = effKey key? ∧ 1 ≤ req.maxResults ∧ req.maxResults ≤ 40 := by
  induction k, start, results using fetchLoop.induct q key? M ps pages with
  | case1 k start results hlt resp hst =>
    rw [fetchLoop_badStatus hlt hst]
    intro req hreq
    simp at hreq
    subst hreq
    refine ⟨rfl, rfl, ?_, ?_⟩ <;> simp [mkReq] <;> omega
  | case2 k start results hlt resp hst e hx =>
    rw [fetchLoop_extractError hlt (by simpa using hst) hx]
    intro req hreq
    simp at hreq
    subst hreq
    refine ⟨rfl, rfl, ?_, ?_⟩ <;> simp [mkReq] <;> omega
  | case3 k start results hlt resp hst hx =>
    rw [fetchLoop_break hlt (by simpa using hst) hx]
    intro req hreq
    simp at hreq
    subst hreq
    refine ⟨rfl, rfl, ?_, ?_⟩ <;> simp [mkReq] <;> omega
  | case4 k start results hlt resp hst xs hx hn =>
    rw [fetchLoop_normError hlt (by simpa using hst) hx hn]
    intro req hreq
    simp at hreq
    subst hreq
    refine ⟨rfl, rfl, ?_, ?_⟩ <;> simp [mkReq] <;> omega
  | case5 k start results hlt remaining this_page resp hst xs hx rows hn ih =>
    rw [fetchLoop_step hlt (by simpa using hst) hx hn]
    intro req hreq
    rcases List.mem_cons.mp hreq with hq | hq
    · subst hq
      refine ⟨rfl, rfl, ?_, ?_⟩ <;> simp [mkReq] <;> omega
    · exact ih req hq
  | case6 k start results hge =>
    rw [fetchLoop_exit hge]
    intro req hreq
    simp at hreq

theorem fetchLoop_trace_len (q : String) (key? : Option String) (M ps : Int)
    (pages : Nat → Response) (k : Nat) (start : Int)
    (results : List (List (String × Value))) :
    (fetchLoop q key? M ps pages k start results).1.length ≤
      (M - results.length).toNat := by
  induction k, start, results using fetchLoop.induct q key? M ps pages with
  | case1 k start results hlt resp hst =>
    rw [fetchLoop_badStatus hlt hst]
    simp
    omega
  | case2 k start results hlt resp hst e hx =>
    rw [fetchLoop_extractError hlt (by simpa using hst) hx]
    simp
    omega
  | case3 k start results hlt resp hst hx =>
    rw [fetchLoop_break hlt (by simpa using hst) hx]
    simp
    omega
  | case4 k start results hlt resp hst xs hx hn =>
    rw [fetchLoop_normError hlt (by simpa using hst) hx hn]
    simp
    omega
  | case5 k start results hlt remaining this_page resp hst xs hx rows hn ih =>
    rw [fetchLoop_step hlt (by simpa using hst) hx hn]
    have hxs : xs ≠ [] := extractItems_some_ne_nil hx
    have hrows : rows.length = xs.length := normList_length hn
    have hpos : 0 < xs.length := List.length_pos.mpr hxs
    have hthis : this_page = ps ⊓ (M - (results.length : Int)) := rfl
    rw [hthis] at ih
    simp only [List.length_cons, List.length_append] at ih ⊢
    omega
  | case6 k start results hge =>
    rw [fetchLoop_exit hge]
    simp

theorem chained_get {rs : List Request} {start : Int} (hc : chained start rs)
    (i : Nat) (hi : i < rs.length) :
    (rs.get ⟨i, hi⟩).startIndex = start + ((rs.take i).map Request.maxResults).sum := by
  induction rs generalizing start i with
  | nil => simp at hi
  | cons r rest ih =>
    cases i with
    | zero => simpa using hc.1
    | succ j =>
      have hj : j < rest.length := by simpa using hi
      have := ih hc.2 j hj
      simp only [List.get_cons_succ, List.take_succ_cons, List.map_cons, List.sum_cons, this]
      ring

theorem take_sum_lt {l : List Int} (h1 : ∀ x ∈ l, 1 ≤ x) {i j : Nat} (hij : i < j)
    (hj : j ≤ l.length) : (l.take i).sum < (l.take j).sum := by
  have hdecomp : l.take j = l.take i ++ (l.drop i).take (j - i) := by
    rw [← List.take_add]
    congr 1
    omega
  rw [hdecomp, List.sum_append]
  have hne : (l.drop i).take (j - i) ≠ [] := by
    rw [← List.length_pos]
    rw [List.length_take, List.length_drop]
    omega
  have hpos : 0 < ((l.drop i).take (j - i)).sum := by
    apply List.sum_pos
    · intro x hx
      have hx2 : x ∈ l := List.drop_subset i l (List.take_subset _ _ hx)
      have := h1 x hx2
      omega
    · exact hne
  omega

theorem chained_mono {rs : List Request} {start : Int} (hc : chained start rs)
    (hpos : ∀ r ∈ rs, 1 ≤ r.maxResults) {i j : Nat} (hij : i < j) (hj : j < rs.length) :
    (rs.get ⟨i, Nat.lt_trans hij hj⟩).startIndex < (rs.get ⟨j, hj⟩).startIndex := by
  rw [chained_get hc i (Nat.lt_trans hij hj), chained_get hc j hj]
  have hmap : ∀ x ∈ rs.map Request.maxResults, 1 ≤ x := by
    intro x hx
    rcases List.mem_map.mp hx with ⟨r, hr, hrx⟩
    rw [← hrx]
    exact hpos r hr
  have h1 : (rs.take i).map Request.maxResults = (rs.map Request.maxResults).take i :=
    List.map_take _ _ _
  have h2 : (rs.take j).map Request.maxResults = (rs.map Request.maxResults).take j :=
    List.map_take _ _ _
  rw [h1, h2]
  have := take_sum_lt hmap hij (by simpa using Nat.le_of_lt hj)
  omega

theorem extractItems_error_kind {d : Value} {e : PyError}
    (h : extractItems d = .error e) : e = .attributeError ∨ e = .typeError := by
  unfold extractItems at h
  cases hg : d.pyGet "items" with
  | none =>
    rw [hg] at h
    simp at h
    left
    exact h.symm
  | some itemsv =>
    rw [hg] at h
    simp only at h
    by_cases ht : (pyOr itemsv (.list [])).truthy
    · rw [if_pos ht] at h
      cases hi : iterValue (pyOr itemsv (.list [])) with
      | none =>
        rw [hi] at h
        simp at h
        right
        exact h.symm
      | some ys =>
        rw [hi] at h
        simp at h
    · rw [if_neg ht] at h
      simp at h

theorem fetchLoop_httpError_iff (q : String) (key? : Option String) (M ps : Int)
    (pages : Nat → Response) (k : Nat) (start : Int)
    (results : List (List (String × Value))) :
    ((∃ i, i < (fetchLoop q key? M ps pages k start results).1.length ∧
        (pages (k + i)).status ≠ 200) ↔
      ∃ s ex, (fetchLoop q key? M ps pages k start results).2 =
        .error (.httpStatus s ex)) ∧
    (∀ s ex, (fetchLoop q key? M ps pages k start results).2 =
        .error (.httpStatus s ex) →
      ∃ i, i < (fetchLoop q key? M ps pages k start results).1.length ∧
        (pages (k + i)).status = s ∧ s ≠ 200 ∧
        ex = pySlice (pages (k + i)).text 200) := by
  induction k, start, results using fetchLoop.induct q key? M ps pages with
  | case1 k start results hlt resp hst =>
    rw [fetchLoop_badStatus hlt hst]
    constructor
    · constructor
      · intro _
        exact ⟨(pages k).status, pySlice (pages k).text 200, rfl⟩
      · intro _
        exact ⟨0, by simp, by simpa using hst⟩
    · intro s ex hse
      simp at hse
      obtain ⟨hs, hex⟩ := hse
      refine ⟨0, by simp, ?_, ?_, ?_⟩
      · simpa using hs
      · rw [← hs]
        simpa using hst
      · simpa using hex.symm
  | case2 k start results hlt resp hst e hx =>
    rw [fetchLoop_extractError hlt (by simpa using hst) hx]
    have hkind := extractItems_error_kind hx
    constructor
    · constructor
      · intro ⟨i, hi, hbad⟩
        have hi0 : i = 0 := by simpa using hi
        subst hi0
        exact absurd (by simpa using hst) hbad
      · intro ⟨s, ex, hse⟩
        rcases hkind with hk | hk <;> subst hk <;> simp at hse
    · intro s ex hse
      rcases hkind with hk | hk <;> subst hk <;> simp at hse
  | case3 k start results hlt resp hst hx =>
    rw [fetchLoop_break hlt (by simpa using hst) hx]
    constructor
    · constructor
      · intro ⟨i, hi, hbad⟩
        have hi0 : i = 0 := by simpa using hi
        subst hi0
        exact absurd (by simpa using hst) hbad
      · intro ⟨s, ex, hse⟩
        simp at hse
    · intro s ex hse
      simp at hse
  | case4 k start results hlt resp hst xs hx hn =>
    rw [fetchLoop_normError hlt (by simpa using hst) hx hn]
    constructor
    · constructor
      · intro ⟨i, hi, hbad⟩
        have hi0 : i = 0 := by simpa using hi
        subst hi0
        exact absurd (by simpa using hst) hbad
      · intro ⟨s, ex, hse⟩
        simp at hse
    · intro s ex hse
      simp at hse
  | case5 k start results hlt remaining this_page resp hst xs hx rows hn ih =>
    rw [fetchLoop_step hlt (by simpa using hst) hx hn]
    have hthis : this_page = ps ⊓ (M - (results.length : Int)) := rfl
    rw [hthis] at ih
    constructor
    · constructor
      · intro ⟨i, hi, hbad⟩
        cases i with
        | zero => exact absurd (by simpa using hst) hbad
        | succ j =>
          apply ih.1.mp
          refine ⟨j, by simpa using hi, ?_⟩
          have harith : k + 1 + j = k + (j + 1) := by omega
          rw [harith]
          exact hbad
      · intro ⟨s, ex, hse⟩
        simp only [] at hse
        rcases ih.1.mpr ⟨s, ex, hse⟩ with ⟨j, hj, hbad⟩
        refine ⟨j + 1, by simpa using Nat.succ_lt_succ hj, ?_⟩
        have harith : k + (j + 1) = k + 1 + j := by omega
        rw [harith]
        exact hbad
    · intro s ex hse
      simp only [] at hse
      rcases ih.2 s ex hse with ⟨j, hj, hsj, hs200, hex⟩
      refine ⟨j + 1, by simpa using Nat.succ_lt_succ hj, ?_, hs200, ?_⟩
      · have harith : k + (j + 1) = k + 1 + j := by omega
        rw [harith]
        exact hsj
      · have harith : k + (j + 1) = k + 1 + j := by omega
        rw [harith]
        exact hex
  | case6 k start results hge =>
    rw [fetchLoop_exit hge]
    constructor
    · constructor
      · intro ⟨i, hi, _⟩
        simp at hi
      · intro ⟨s, ex, hse⟩
        simp at hse
    · intro s ex hse
      simp at hse

theorem fetchLoop_key_congr (q : String) (key1 key2 : Option String) (M ps : Int)
    (pages : Nat → Response) (hk : effKey key1 = effKey key2) (k : Nat) (start : Int)
    (results : List (List (String × Value))) :
    fetchLoop q key1 M ps pages k start results =
      fetchLoop q key2 M ps pages k start results := by
  induction k, start, results using fetchLoop.induct q key1 M ps pages with
  | case1 k start results hlt resp hst =>
    rw [fetchLoop_badStatus hlt hst, fetchLoop_badStatus hlt hst]
    simp [mkReq, hk]
  | case2 k start results hlt resp hst e hx =>
    rw [fetchLoop_extractError hlt (by simpa using hst) hx,
      fetchLoop_extractError hlt (by simpa using hst) hx]
    simp [mkReq, hk]
  | case3 k start results hlt resp hst hx =>
    rw [fetchLoop_break hlt (by simpa using hst) hx,
      fetchLoop_break hlt (by simpa using hst) hx]
    simp [mkReq, hk]
  | case4 k start results hlt resp hst xs hx hn =>
    rw [fetchLoop_normError hlt (by simpa using hst) hx hn,
      fetchLoop_normError hlt (by simpa using hst) hx hn]
    simp [mkReq, hk]
  | case5 k start results hlt remaining this_page resp hst xs hx rows hn ih =>
    rw [fetchLoop_step hlt (by simpa using hst) hx hn,
      fetchLoop_step hlt (by simpa using hst) hx hn]
    have hthis : this_page = ps ⊓ (M - (results.length : Int)) := rfl
    rw [hthis] at ih
    rw [ih]
    simp [mkReq, hk]
  | case6 k start results hge =>
    rw [fetchLoop_exit hge, fetchLoop_exit hge]

/-- The items list a page response contributes: the extracted list on a
successful non-break page, `[]` otherwise. -/
def pageItems (r : Response) : List Value :=
  match extractItems r.json with
  | .ok (some xs) => xs
  | _ => []

/-- Concatenation, in fetch order, of the items of responses
`k, k+1, ..., k+n-1`. -/
def itemsFrom (pages : Nat → Response) (k : Nat) : Nat → List Value
  | 0 => []
  | n + 1 => pageItems (pages k) ++ itemsFrom pages (k + 1) n

theorem normList_append {a b : List Value}
    {ra rb : List (List (String × Value))}
    (ha : normList a = some ra) (hb : normList b = some rb) :
    normList (a ++ b) = some (ra ++ rb) := by
  induction a generalizing ra with
  | nil =>
    simp [normList] at ha
    simp [← ha, hb]
  | cons x xs ih =>
    simp only [normList, List.cons_append] at ha ⊢
    cases hx : normalize_item x with
    | none => rw [hx] at ha; simp at ha
    | some r =>
      rw [hx] at ha
      cases hxs : normList xs with
      | none => rw [hxs] at ha; simp at ha
      | some rs =>
        rw [hxs] at ha
        simp at ha
        simp only [List.append_eq]
        rw [ih hxs]
        simp [← ha]

theorem fetchLoop_ok_order (q : String) (key? : Option String) (M ps : Int)
    (pages : Nat → Response) (k : Nat) (start : Int)
    (results l : List (List (String × Value)))
    (hok : (fetchLoop q key? M ps pages k start results).2 = .ok l) :
    ∃ n rs, normList (itemsFrom pages k n) = some rs ∧ l = results ++ rs := by
  induction k, start, results using fetchLoop.induct q key? M ps pages with
  | case1 k start results hlt resp hst =>
    rw [fetchLoop_badStatus hlt hst] at hok
    simp at hok
  | case2 k start results hlt resp hst e hx =>
    rw [fetchLoop_extractError hlt (by simpa using hst) hx] at hok
    simp at hok
  | case3 k start results hlt resp hst hx =>
    rw [fetchLoop_break hlt (by simpa using hst) hx] at hok
    simp at hok
    exact ⟨0, [], by simp [itemsFrom, normList], by simp [hok]⟩
  | case4 k start results hlt resp hst xs hx hn =>
    rw [fetchLoop_normError hlt (by simpa using hst) hx hn] at hok
    simp at hok
  | case5 k start results hlt remaining this_page resp hst xs hx rows hn ih =>
    rw [fetchLoop_step hlt (by simpa using hst) hx hn] at hok
    have hthis : this_page = ps ⊓ (M - (results.length : Int)) := rfl
    rw [hthis] at ih
    rcases ih hok with ⟨n, rs, hnorm, hl⟩
    refine ⟨n + 1, rows ++ rs, ?_, ?_⟩
    · have hpi : pageItems (pages k) = xs := by
        unfold pageItems
        rw [hx]
      rw [itemsFrom, hpi]
      exact normList_append hn hnorm
    · rw [hl, List.append_assoc]
  | case6 k start results hge =>
    rw [fetchLoop_exit hge] at hok
    simp at hok
    exact ⟨0, [], by simp [itemsFrom, normList], by simp [hok]⟩

theorem fetchLoop_ok_len (q : String) (key? : Option String) (M ps : Int)
    (pages : Nat → Response) (k : Nat) (start : Int)
    (results l : List (List (String × Value)))
    (hok : (fetchLoop q key? M ps pages k start results).2 = .ok l)
    (hp : ∀ j r, (fetchLoop q key? M ps pages k start results).1.get? j = some r →
      ((pageItems (pages (k + j))).length : Int) ≤ r.maxResults) :
    (l.length : Int) ≤ max M (results.length : Int) := by
  induction k, start, results using fetchLoop.induct q key? M ps pages with
  | case1 k start results hlt resp hst =>
    rw [fetchLoop_badStatus hlt hst] at hok
    simp at hok
  | case2 k start results hlt resp hst e hx =>
    rw [fetchLoop_extractError hlt (by simpa using hst) hx] at hok
    simp at hok
  | case3 k start results hlt resp hst hx =>
    rw [fetchLoop_break hlt (by simpa using hst) hx] at hok
    simp at hok
    rw [← hok]
    exact le_max_right _ _
  | case4 k start results hlt resp hst xs hx hn =>
    rw [fetchLoop_normError hlt (by simpa using hst) hx hn] at hok
    simp at hok
  | case5 k start results hlt remaining this_page resp hst xs hx rows hn ih =>
    rw [fetchLoop_step hlt (by simpa using hst) hx hn] at hok hp
    have hthis : this_page = ps ⊓ (M - (results.length : Int)) := rfl
    rw [hthis] at ih
    have hpi : pageItems (pages k) = xs := by
      unfold pageItems
      rw [hx]
    have hrows : rows.length = xs.length := normList_length hn
    have hp0 := hp 0 (mkReq q key? M ps start results) rfl
    simp only [Nat.add_zero, hpi] at hp0
    have hmax : (xs.length : Int) ≤ M - results.length := by
      simp [mkReq] at hp0
      omega
    have ihres := ih hok (fun j r hr => by
      have hstep := hp (j + 1) r (by simpa using hr)
      have harith : k + (j + 1) = k + 1 + j := by omega
      rw [harith] at hstep
      exact hstep)
    simp only [List.length_append] at ihres
    push_cast at ihres ⊢
    omega
  | case6 k start results hge =>
    rw [fetchLoop_exit hge] at hok
    simp at hok
    rw [← hok]
    exact le_max_right _ _

/-- The row produced by `normalize_item` on the empty item `{}`: every
straight-lookup field is `null`; `authors` and `categories` are the join
of the defaulted empty sequence, i.e. the empty string. -/
def rowOfEmpty : List (String × Value) :=
  [("id", .null), ("title", .null), ("subtitle", .null), ("authors", .str ""),
   ("publisher", .null), ("publishedDate", .null), ("description", .null),
   ("pageCount", .null), ("categories", .str ""), ("averageRating", .null),
   ("ratingsCount", .null), ("language", .null), ("infoLink", .null),
   ("previewLink", .null), ("canonicalVolumeLink", .null), ("isEbook", .null),
   ("webReaderLink", .null)]

theorem normalize_empty : normalize_item (.obj []) = some rowOfEmpty := rfl

theorem pySlice_len (s : String) (n : Nat) : (pySlice s n).length ≤ n := by
  show (s.data.take n).length ≤ n
  rw [List.length_take]
  omega

theorem pyOr_obj_empty (kvs : List (String × Value)) :
    pyOr (.obj kvs) (.obj []) = .obj kvs := by
  cases kvs with
  | nil => rfl
  | cons kv rest => rfl

theorem strList_map_str (ss : List String) : strList (ss.map Value.str) = some ss := by
  induction ss with
  | nil => rfl
  | cons s rest ih => simp [strList, ih]

theorem joinIfList_not_list {v : Value} (h : ∀ xs, v ≠ .list xs) :
    joinIfList v = some v := by
  cases v with
  | list xs => exact absurd rfl (h xs)
  | null => rfl
  | bool b => rfl
  | num n => rfl
  | str s => rfl
  | obj kvs => rfl

theorem normalize_keys {item : Value} {row : List (String × Value)}
    (h : normalize_item item = some row) : row.map Prod.fst = spec_field_order := by
  cases item with
  | obj kvs =>
    simp only [normalize_item] at h
    split at h
    · split at h
      · injection h with h2
        rw [← h2]
        rfl
      · cases h
    · cases h
  | null => simp [normalize_item] at h
  | bool b => simp [normalize_item] at h
  | num n => simp [normalize_item] at h
  | str s => simp [normalize_item] at h
  | list xs => simp [normalize_item] at h

theorem normalize_item_obj {kvs vkvs skvs akvs : List (String × Value)}
    (hv : lookupKey kvs "volumeInfo" = some (.obj vkvs))
    (hs : lookupKey kvs "saleInfo" = some (.obj skvs))
    (ha : lookupKey kvs "accessInfo" = some (.obj akvs)) :
    normalize_item (.obj kvs) =
      match joinIfList (pyOr ((lookupKey vkvs "authors").getD .null) (.list [])),
          joinIfList (pyOr ((lookupKey vkvs "categories").getD .null) (.list [])) with
      | some aJ, some cJ => some (rowFields kvs vkvs skvs akvs aJ cJ)
      | _, _ => none := by
  simp only [normalize_item, hv, hs, ha, Option.getD_some, pyOr_obj_empty]

theorem normalize_item_obj_elim {kvs vkvs skvs akvs row : List (String × Value)}
    (hv : lookupKey kvs "volumeInfo" = some (.obj vkvs))
    (hs : lookupKey kvs "saleInfo" = some (.obj skvs))
    (ha : lookupKey kvs "accessInfo" = some (.obj akvs))
    (hrow : normalize_item (.obj kvs) = some row) :
    ∃ aJ cJ,
      joinIfList (pyOr ((lookupKey vkvs "authors").getD .null) (.list [])) = some aJ ∧
      joinIfList (pyOr ((lookupKey vkvs "categories").getD .null) (.list [])) = some cJ ∧
      row = rowFields kvs vkvs skvs akvs aJ cJ := by
  rw [normalize_item_obj hv hs ha] at hrow
  cases hj1 : joinIfList (pyOr ((lookupKey vkvs "authors").getD .null) (.list [])) with
  | none => rw [hj1] at hrow; simp at hrow
  | some aJ =>
    rw [hj1] at hrow
    cases hj2 : joinIfList (pyOr ((lookupKey vkvs "categories").getD .null) (.list [])) with
    | none => rw [hj2] at hrow; simp at hrow
    | some cJ =>
      rw [hj2] at hrow
      simp at hrow
      exact ⟨aJ, cJ, rfl, rfl, hrow.symm⟩

/-- Scenario: every page responds 200 with no `items` field. -/
def pagesNoItems : Nat → Response := fun _ => ⟨200, "", .obj []⟩

theorem run_noItems : fetch_books "q" none 5 40 pagesNoItems =
    ([⟨"q", 0, 5, none⟩], .ok []) := by
  simp [fetch_books, fetchLoop, pagesNoItems, extractItems, Value.pyGet, Value.getD,
    lookupKey, pyOr, Value.truthy, effKey]

/-- Scenario: every page responds 201 (a 2xx status that is not 200). -/
def pages201 : Nat → Response := fun _ => ⟨201, "Created", .obj []⟩

theorem run_201 : fetch_books "q" none 5 40 pages201 =
    ([⟨"q", 0, 5, none⟩], .error (.httpStatus 201 (pySlice "Created" 200))) := by
  simp [fetch_books, fetchLoop, pages201, effKey]

/-- Scenario: every page returns two items (more than a request for one
item asks for). -/
def pagesOver : Nat → Response :=
  fun _ => ⟨200, "", .obj [("items", .list [.obj [], .obj []])]⟩

theorem run_over : fetch_books "q" none 1 40 pagesOver =
    ([⟨"q", 0, 1, none⟩], .ok [rowOfEmpty, rowOfEmpty]) := by
  simp [fetch_books, fetchLoop, pagesOver, extractItems, Value.pyGet, Value.getD,
    lookupKey, pyOr, Value.truthy, iterValue, normList, normalize_empty, effKey]

/-- Scenario: the first page returns two items, later pages none. -/
def pagesTwoW : Nat → Response :=
  fun n => if n = 0 then ⟨200, "", .obj [("items", .list [.obj [], .obj []])]⟩
    else ⟨200, "", .obj []⟩

theorem run_twoW : fetch_books "q" none 3 2 pagesTwoW =
    ([⟨"q", 0, 2, none⟩, ⟨"q", 2, 1, none⟩], .ok [rowOfEmpty, rowOfEmpty]) := by
  simp [fetch_books, fetchLoop, pagesTwoW, extractItems, Value.pyGet, Value.getD,
    lookupKey, pyOr, Value.truthy, iterValue, normList, normalize_empty, effKey]

/-- C6: whatever page size the caller supplies (including values below 1
or above 40), every issued request carries a `maxResults` parameter in
the inclusive range [1, 40]. -/
theorem claim_C6 (q : String) (api_key : Option String) (M ps : Int)
    (pages : Nat → Response) :
    ∀ req ∈ (fetch_books q api_key M ps pages).1,
      1 ≤ req.maxResults ∧ req.maxResults ≤ 40 := by
  intro req hreq
  have h := fetchLoop_req_shape q api_key M (max 1 (min ps 40)) pages
    (by omega) (by omega) 0 0 [] req hreq
  exact ⟨h.2.2.1, h.2.2.2⟩

theorem claim_C6_witness :
    1 ≤ (Request.mk "q" 0 5 none).maxResults ∧
      (Request.mk "q" 0 5 none).maxResults ≤ 40 :=
  claim_C6 "q" none 5 40 pagesNoItems (Request.mk "q" 0 5 none)
    (by rw [run_noItems]; simp)

/-- C7: every issued request's `startIndex` equals the running sum of the
`maxResults` of all previously issued requests (starting from 0), and the
`startIndex` values are strictly increasing along the trace. -/
theorem claim_C7 (q : String) (api_key : Option String) (M ps : Int)
    (pages : Nat → Response) :
    (∀ i r, (fetch_books q api_key M ps pages).1.get? i = some r →
      r.startIndex =
        (((fetch_books q api_key M ps pages).1.take i).map Request.maxResults).sum) ∧
    (∀ i j ri rj, i < j →
      (fetch_books q api_key M ps pages).1.get? i = some ri →
      (fetch_books q api_key M ps pages).1.get? j = some rj →
      ri.startIndex < rj.startIndex) := by
  have hch : chained 0 (fetch_books q api_key M ps pages).1 :=
    fetchLoop_chained q api_key M (max 1 (min ps 40)) pages 0 0 []
  constructor
  · intro i r hr
    rcases List.get?_eq_some.mp hr with ⟨hi, hget⟩
    have := chained_get hch i hi
    rw [hget] at this
    simpa using this
  · intro i j ri rj hij hri hrj
    rcases List.get?_eq_some.mp hri with ⟨hi, hgeti⟩
    rcases List.get?_eq_some.mp hrj with ⟨hj, hgetj⟩
    have := chained_mono hch (fun r hr =>
      (fetchLoop_req_shape q api_key M (max 1 (min ps 40)) pages
        (by omega) (by omega) 0 0 [] r hr).2.2.1) hij hj
    rw [hgeti, hgetj] at this
    exact this

theorem run_twoW_len : (fetch_books "q" none 3 2 pagesTwoW).1.length = 2 := by
  rw [run_twoW]
  rfl

theorem claim_C7_witness :
    (Request.mk "q" 0 2 none).startIndex < (Request.mk "q" 2 1 none).startIndex := by
  have h := (claim_C7 "q" none 3 2 pagesTwoW).2 0 1 (Request.mk "q" 0 2 none)
    (Request.mk "q" 2 1 none) Nat.zero_lt_one (by rw [run_twoW]; rfl) (by rw [run_twoW]; rfl)
  exact h

/-- C8: at any loop state, a 200 response whose `items` entry defaults to
falsy (absent, null or empty) makes the loop stop: the single request of
that page is the last one issued, and the rows accumulated so far are
returned without an error. -/
theorem claim_C8 (q : String) (api_key : Option String) (M ps : Int)
    (pages : Nat → Response) (k : Nat) (start : Int)
    (results : List (List (String × Value)))
    (hlt : (results.length : Int) < M)
    (hst : (pages k).status = 200)
    (hempty : extractItems (pages k).json = .ok none) :
    fetchLoop q api_key M ps pages k start results =
      ([mkReq q api_key M ps start results], .ok results) :=
  fetchLoop_break hlt hst hempty

theorem claim_C8_witness :
    fetchLoop "q" none 5 40 pagesNoItems 1 5 [rowOfEmpty] =
      ([mkReq "q" none 5 40 5 [rowOfEmpty]], .ok [rowOfEmpty]) :=
  claim_C8 "q" none 5 40 pagesNoItems 1 5 [rowOfEmpty] (by simp) rfl rfl

/-- C9: the loop always terminates, issuing at most `max_results` requests
(each iteration issues one request and either stops or appends at least
one row). -/
theorem claim_C9 (q : String) (api_key : Option String) (M ps : Int)
    (pages : Nat → Response) :
    (fetch_books q api_key M ps pages).1.length ≤ M.toNat := by
  have h : (fetch_books q api_key M ps pages).1.length ≤
      (M - (([] : List (List (String × Value))).length : Int)).toNat :=
    fetchLoop_trace_len q api_key M (max 1 (min ps 40)) pages 0 0 []
  simpa using h

/-- C10: an empty-string API key is falsy, so it is treated exactly like
an absent key: the whole run (requests issued and result) is identical. -/
theorem claim_C10 (q : String) (M ps : Int) (pages : Nat → Response) :
    fetch_books q (some "") M ps pages = fetch_books q none M ps pages := by
  unfold fetch_books
  exact fetchLoop_key_congr q (some "") none M (max 1 (min ps 40)) pages rfl 0 0 []

/-- C1 (amended): the fetch raises its HTTP-status error (carrying the
status code and the body truncated to at most 200 characters) when, and
only when, some response in the run has status ≠ 200 — not "non-2xx":
the code tests `status_code != 200`, so a 201 response also aborts. -/
theorem claim_C1 (q : String) (api_key : Option String) (M ps : Int)
    (pages : Nat → Response) :
    ((∃ i, i < (fetch_books q api_key M ps pages).1.length ∧
        (pages i).status ≠ 200) ↔
      ∃ s ex, (fetch_books q api_key M ps pages).2 = .error (.httpStatus s ex)) ∧
    (∀ s ex, (fetch_books q api_key M ps pages).2 = .error (.httpStatus s ex) →
      s ≠ 200 ∧ ex.length ≤ 200 ∧
      ∃ i, i < (fetch_books q api_key M ps pages).1.length ∧
        (pages i).status = s ∧ ex = pySlice (pages i).text 200) := by
  have h := fetchLoop_httpError_iff q api_key M (max 1 (min ps 40)) pages 0 0 []
  constructor
  · constructor
    · intro ⟨i, hi, hbad⟩
      exact h.1.mp ⟨i, hi, by simpa using hbad⟩
    · intro he
      rcases h.1.mpr he with ⟨i, hi, hbad⟩
      exact ⟨i, hi, by simpa using hbad⟩
  · intro s ex hse
    rcases h.2 s ex hse with ⟨i, hi, hsi, h200, hex⟩
    refine ⟨h200, ?_, i, hi, by simpa using hsi, by simpa using hex⟩
    rw [hex]
    exact pySlice_len _ _

/-- C1 counterexample: a 201 response is in the 2xx range, yet the run
fails with the HTTP-status error, because the code tests `!= 200`. -/
theorem claim_C1_counterexample :
    (200 ≤ 201 ∧ 201 < 300) ∧
    (fetch_books "q" none 5 40 pages201).2 =
      .error (.httpStatus 201 (pySlice "Created" 200)) := by
  refine ⟨⟨by omega, by omega⟩, ?_⟩
  rw [run_201]

theorem claim_C1_witness :
    201 ≠ 200 ∧ (pySlice "Created" 200).length ≤ 200 := by
  have h := (claim_C1 "q" none 5 40 pages201).2 201 (pySlice "Created" 200)
    (by rw [run_201])
  exact ⟨h.1, h.2.1⟩

/-- C5 (amended): on a successful run the returned rows are exactly the
normalization, in fetch order, of the items received page by page; and
provided every response carries at most as many items as its request's
`maxResults` asked for, the result has at most `max(maxResults, 0)` rows.
(Without that proviso the bound fails: the code appends every received
item, so an over-full page overshoots `maxResults`.) -/
theorem claim_C5 (q : String) (api_key : Option String) (M ps : Int)
    (pages : Nat → Response) (l : List (List (String × Value)))
    (hok : (fetch_books q api_key M ps pages).2 = .ok l) :
    (∃ n rs, normList (itemsFrom pages 0 n) = some rs ∧ l = rs) ∧
    ((∀ j r, (fetch_books q api_key M ps pages).1.get? j = some r →
        ((pageItems (pages j)).length : Int) ≤ r.maxResults) →
      l.length ≤ M.toNat) := by
  constructor
  · rcases fetchLoop_ok_order q api_key M (max 1 (min ps 40)) pages 0 0 [] l hok with
      ⟨n, rs, h1, h2⟩
    exact ⟨n, rs, h1, by simpa using h2⟩
  · intro hp
    have h := fetchLoop_ok_len q api_key M (max 1 (min ps 40)) pages 0 0 [] l hok
      (fun j r hr => by simpa using hp j r hr)
    simp only [List.length_nil, Nat.cast_zero] at h
    omega

/-- C5 counterexample: with `maxResults = 1` and a page that returns two
items, the code returns two rows — more than `maxResults`. -/
theorem claim_C5_counterexample :
    (fetch_books "q" none 1 40 pagesOver).2 = .ok [rowOfEmpty, rowOfEmpty] ∧
    ¬ ((([rowOfEmpty, rowOfEmpty] : List (List (String × Value))).length : Int) ≤ 1) := by
  refine ⟨?_, by decide⟩
  rw [run_over]

theorem claim_C5_witness :
    ([rowOfEmpty, rowOfEmpty] : List (List (String × Value))).length ≤ (3 : Int).toNat := by
  have h := claim_C5 "q" none 3 2 pagesTwoW [rowOfEmpty, rowOfEmpty] (by rw [run_twoW])
  apply h.2
  intro j r hr
  rw [run_twoW] at hr
  cases j with
  | zero =>
    injection hr with h1
    rw [← h1]
    decide
  | succ j1 =>
    cases j1 with
    | zero =>
      injection hr with h1
      rw [← h1]
      decide
    | succ j2 =>
      simp at hr

/-- C2 (amended): the NormalizedRow field order is the §3 order (with
`description` seventh), but the tabular/CSV column order imposed by
`to_dataframe` is a different permutation of the same seventeen fields:
`description` is moved to the last (seventeenth) position and
`categories` precedes `pageCount`. -/
theorem claim_C2 :
    (∀ item row, normalize_item item = some row →
      row.map Prod.fst = spec_field_order) ∧
    to_dataframe_cols.Perm spec_field_order ∧
    to_dataframe_cols ≠ spec_field_order ∧
    to_dataframe_cols.get? 16 = some "description" ∧
    spec_field_order.get? 6 = some "description" :=
  ⟨fun _ _ h => normalize_keys h, by decide, by decide, rfl, rfl⟩

/-- C2 counterexample: the CSV header order of `to_dataframe` is not the
§3 field order (the seventh column is `categories`, not `description`,
and `description` comes last). -/
theorem claim_C2_counterexample :
    to_dataframe_cols ≠ spec_field_order ∧
    to_dataframe_cols.get? 6 = some "categories" := by
  exact ⟨by decide, rfl⟩

theorem claim_C2_witness : rowOfEmpty.map Prod.fst = spec_field_order :=
  claim_C2.1 (.obj []) rowOfEmpty normalize_empty

/-- C3 (amended): `normalize` applied to the empty item `{}` raises no
exception and returns the row whose fifteen straight-lookup fields are
all the absent value, while `authors` and `categories` — the join of the
defaulted empty sequence — are the empty string, not the absent value. -/
theorem claim_C3 :
    normalize_item (.obj []) = some rowOfEmpty ∧
    rowOfEmpty.map Prod.snd =
      [.null, .null, .null, .str "", .null, .null, .null, .null, .str "",
       .null, .null, .null, .null, .null, .null, .null, .null] :=
  ⟨rfl, rfl⟩

/-- C3 counterexample: on `{}` the `authors` field of the produced row is
the empty string, not the absent value. -/
theorem claim_C3_counterexample :
    normalize_item (.obj []) = some rowOfEmpty ∧
    lookupKey rowOfEmpty "authors" ≠ some Value.null := by
  refine ⟨rfl, ?_⟩
  have h : lookupKey rowOfEmpty "authors" = some (Value.str "") := rfl
  rw [h]
  simp

theorem joinArm_falsy {v : Value} (hf : v.truthy = false) :
    joinIfList (pyOr v (.list [])) = some (.str "") := by
  unfold pyOr
  rw [hf]
  rfl

theorem joinArm_strs (ss : List String) :
    joinIfList (pyOr (.list (ss.map Value.str)) (.list [])) =
      some (.str (String.intercalate ", " ss)) := by
  by_cases h : (Value.list (ss.map Value.str)).truthy = true
  · unfold pyOr
    rw [if_pos h]
    simp [joinIfList, strList_map_str]
  · have hss : ss = [] := by
      cases ss with
      | nil => rfl
      | cons a rest => simp [Value.truthy] at h
    subst hss
    rfl

theorem joinArm_truthy_notlist {v : Value} (ht : v.truthy = true)
    (hnl : ∀ xs, v ≠ .list xs) :
    joinIfList (pyOr v (.list [])) = some v := by
  unfold pyOr
  rw [if_pos ht]
  exact joinIfList_not_list hnl

/-- C4 (amended): for an item whose three sub-mappings are present as
dicts, the produced row maps `authors` (and `categories`) by Python
truthiness — absent, null, or any *falsy* value (such as the number 0 or
the empty string) defaults to the empty sequence and joins to `""`; a
list of strings joins with `", "`; a *truthy* non-list value passes
through unchanged — and every other field is the straight lookup value,
reproduced unchanged.  (The claim's "any non-sequence value is passed
through unchanged" fails for falsy scalars.) -/
theorem claim_C4 {kvs vkvs skvs akvs row : List (String × Value)}
    (hv : lookupKey kvs "volumeInfo" = some (.obj vkvs))
    (hs : lookupKey kvs "saleInfo" = some (.obj skvs))
    (ha : lookupKey kvs "accessInfo" = some (.obj akvs))
    (hrow : normalize_item (.obj kvs) = some row) :
    ((lookupKey vkvs "authors" = none →
        lookupKey row "authors" = some (.str "")) ∧
     (∀ v, lookupKey vkvs "authors" = some v → v.truthy = false →
        lookupKey row "authors" = some (.str "")) ∧
     (∀ ss, lookupKey vkvs "authors" = some (.list (ss.map Value.str)) →
        lookupKey row "authors" = some (.str (String.intercalate ", " ss))) ∧
     (∀ v, lookupKey vkvs "authors" = some v → v.truthy = true →
        (∀ xs, v ≠ .list xs) → lookupKey row "authors" = some v)) ∧
    ((lookupKey vkvs "categories" = none →
        lookupKey row "categories" = some (.str "")) ∧
     (∀ v, lookupKey vkvs "categories" = some v → v.truthy = false →
        lookupKey row "categories" = some (.str "")) ∧
     (∀ ss, lookupKey vkvs "categories" = some (.list (ss.map Value.str)) →
        lookupKey row "categories" = some (.str (String.intercalate ", " ss))) ∧
     (∀ v, lookupKey vkvs "categories" = some v → v.truthy = true →
        (∀ xs, v ≠ .list xs) → lookupKey row "categories" = some v)) ∧
    (lookupKey row "id" = some ((lookupKey kvs "id").getD .null) ∧
     lookupKey row "title" = some ((lookupKey vkvs "title").getD .null) ∧
     lookupKey row "subtitle" = some ((lookupKey vkvs "subtitle").getD .null) ∧
     lookupKey row "publisher" = some ((lookupKey vkvs "publisher").getD .null) ∧
     lookupKey row "publishedDate" =
       some ((lookupKey vkvs "publishedDate").getD .null) ∧
     lookupKey row "description" =
       some ((lookupKey vkvs "description").getD .null) ∧
     lookupKey row "pageCount" = some ((lookupKey vkvs "pageCount").getD .null) ∧
     lookupKey row "averageRating" =
       some ((lookupKey vkvs "averageRating").getD .null) ∧
     lookupKey row "ratingsCount" =
       some ((lookupKey vkvs "ratingsCount").getD .null) ∧
     lookupKey row "language" = some ((lookupKey vkvs "language").getD .null) ∧
     lookupKey row "infoLink" = some ((lookupKey vkvs "infoLink").getD .null) ∧
     lookupKey row "previewLink" =
       some ((lookupKey vkvs "previewLink").getD .null) ∧
     lookupKey row "canonicalVolumeLink" =
       some ((lookupKey vkvs "canonicalVolumeLink").getD .null) ∧
     lookupKey row "isEbook" = some ((lookupKey skvs "isEbook").getD .null) ∧
     lookupKey row "webReaderLink" =
       some ((lookupKey akvs "webReaderLink").getD .null)) := by
  rcases normalize_item_obj_elim hv hs ha hrow with ⟨aJ, cJ, hja, hjc, hroweq⟩
  subst hroweq
  refine ⟨⟨?_, ?_, ?_, ?_⟩, ⟨?_, ?_, ?_, ?_⟩,
    rfl, rfl, rfl, rfl, rfl, rfl, rfl, rfl, rfl, rfl, rfl, rfl, rfl, rfl, rfl⟩
  · intro h
    rw [h] at hja
    rw [show lookupKey (rowFields kvs vkvs skvs akvs aJ cJ) "authors" = some aJ from rfl]
    exact (show some (Value.str "") = some aJ from hja).symm
  · intro v hlk hf
    rw [hlk] at hja
    simp only [Option.getD_some] at hja
    rw [joinArm_falsy hf] at hja
    rw [show lookupKey (rowFields kvs vkvs skvs akvs aJ cJ) "authors" = some aJ from rfl]
    exact hja.symm
  · intro ss hlk
    rw [hlk] at hja
    simp only [Option.getD_some] at hja
    rw [joinArm_strs ss] at hja
    rw [show lookupKey (rowFields kvs vkvs skvs akvs aJ cJ) "authors" = some aJ from rfl]
    exact hja.symm
  · intro v hlk ht hnl
    rw [hlk] at hja
    simp only [Option.getD_some] at hja
    rw [joinArm_truthy_notlist ht hnl] at hja
    rw [show lookupKey (rowFields kvs vkvs skvs akvs aJ cJ) "authors" = some aJ from rfl]
    exact hja.symm
  · intro h
    rw [h] at hjc
    rw [show lookupKey (rowFields kvs vkvs skvs akvs aJ cJ) "categories" = some cJ from rfl]
    exact (show some (Value.str "") = some cJ from hjc).symm
  · intro v hlk hf
    rw [hlk] at hjc
    simp only [Option.getD_some] at hjc
    rw [joinArm_falsy hf] at hjc
    rw [show lookupKey (rowFields kvs vkvs skvs akvs aJ cJ) "categories" = some cJ from rfl]
    exact hjc.symm
  · intro ss hlk
    rw [hlk] at hjc
    simp only [Option.getD_some] at hjc
    rw [joinArm_strs ss] at hjc
    rw [show lookupKey (rowFields kvs vkvs skvs akvs aJ cJ) "categories" = some cJ from rfl]
    exact hjc.symm
  · intro v hlk ht hnl
    rw [hlk] at hjc
    simp only [Option.getD_some] at hjc
    rw [joinArm_truthy_notlist ht hnl] at hjc
    rw [show lookupKey (rowFields kvs vkvs skvs akvs aJ cJ) "categories" = some cJ from rfl]
    exact hjc.symm

/-- Item whose `authors` is the scalar `0`: present, non-sequence, falsy. -/
def itemC4 : Value := .obj [("volumeInfo", .obj [("authors", .num 0)])]

/-- C4 counterexample: `authors = 0` is a present non-sequence value, but
the row contains `""` (the join of the defaulted empty sequence), not the
value `0` passed through unchanged: `0 or []` takes the `[]` branch for
every falsy value, not only for absent/null. -/
theorem claim_C4_counterexample :
    (normalize_item itemC4).map (fun row => lookupKey row "authors") =
      some (some (.str "")) ∧ Value.str "" ≠ Value.num 0 := by
  refine ⟨rfl, ?_⟩
  simp

def kvsC4W : List (String × Value) :=
  [("volumeInfo", .obj [("title", .str "T")]),
   ("saleInfo", .obj [("isEbook", .bool true)]),
   ("accessInfo", .obj [])]

def rowC4W : List (String × Value) :=
  [("id", .null), ("title", .str "T"), ("subtitle", .null), ("authors", .str ""),
   ("publisher", .null), ("publishedDate", .null), ("description", .null),
   ("pageCount", .null), ("categories", .str ""), ("averageRating", .null),
   ("ratingsCount", .null), ("language", .null), ("infoLink", .null),
   ("previewLink", .null), ("canonicalVolumeLink", .null), ("isEbook", .bool true),
   ("webReaderLink", .null)]

theorem claim_C4_witness :
    lookupKey rowC4W "authors" = some (Value.str "") ∧
    lookupKey rowC4W "title" =
      some ((lookupKey [("title", Value.str "T")] "title").getD .null) := by
  have h := @claim_C4 kvsC4W [("title", Value.str "T")] [("isEbook", Value.bool true)]
    [] rowC4W rfl rfl rfl rfl
  exact ⟨h.1.1 rfl, h.2.2.2.1⟩
